import Mathlib

/-!
Verification of the PTQ (post-training quantization) engine in
`nni/compression/pytorch/quantization/ptq_quantizer.py`.

Shallow embedding conventions: tensors are `List ℚ` (real arithmetic over the
rationals), scalar tensor values are `ℚ`, integer tensor values are `ℤ`,
`torch.round` is round-half-to-even, `torch.clamp x lo hi` is
`min (max x lo) hi`, and the infinite initial values of the range-collector
buffer live in an explicit extended-rational type `ExtQ`.
-/

/-- Quantization schemes, from the `QuantScheme` literal enum. -/
inductive QuantScheme where
  | PER_TENSOR_AFFINE
  | PER_TENSOR_SYMMETRIC
  | PER_CHANNEL_AFFINE
  | PER_CHANNEL_SYMMETRIC
deriving DecidableEq

/-- Quantization dtypes, from the `QuantDtype` literal enum. -/
inductive QuantDtype where
  | INT
  | UINT
deriving DecidableEq

/-- The test `qscheme in [QuantScheme.PER_TENSOR_SYMMETRIC, QuantScheme.PER_CHANNEL_SYMMETRIC]`
at the top of `calculate_qparams`. -/
def QuantScheme.isSymmetric : QuantScheme → Bool
  | .PER_TENSOR_SYMMETRIC => true
  | .PER_CHANNEL_SYMMETRIC => true
  | _ => false

/-- Machine epsilon of float32, `torch.finfo(torch.float32).eps = 2 ** (-23)`. -/
def eps32 : ℚ := 1 / 2 ^ 23

/-- Round half to even, the rounding mode of `torch.round`.  The result is an
integer (the source keeps it as an integral float and later casts exactly). -/
def roundHalfEven (q : ℚ) : ℤ :=
  if q - ⌊q⌋ < 1 / 2 then ⌊q⌋
  else if 1 / 2 < q - ⌊q⌋ then ⌊q⌋ + 1
  else if ⌊q⌋ % 2 = 0 then ⌊q⌋ else ⌊q⌋ + 1

/-- Integer `torch.clamp(x, lo, hi)`. -/
def clampZ (x lo hi : ℤ) : ℤ := min (max x lo) hi

/-- Rational `torch.clamp(x, lo, hi)`. -/
def clampQ (x lo hi : ℚ) : ℚ := min (max x lo) hi

/-- The scalar (per-tensor) quantization-parameter solver `calculate_qparams`
of `ptq_quantizer.py` (lines 62-88), for finite `vmin`, `vmax`.  The leading
`assert torch.all(vmin <= vmax)` is the precondition `vmin ≤ vmax` of the
theorems below; integer division `qmax // 2` is Lean `ℤ` division, which for
the positive divisor 2 agrees with Python floor division. -/
def calculate_qparams (vmin vmax : ℚ) (qmin qmax : ℤ)
    (qscheme : QuantScheme) (qdtype : QuantDtype) : ℚ × ℤ :=
  let vmin_neg := min vmin 0
  let vmax_pos := max vmax 0
  if qscheme.isSymmetric then
    let vmax_pos2 := max (-vmin_neg) vmax_pos
    let scale := vmax_pos2 / (((qmax : ℚ) - (qmin : ℚ)) / 2)
    let scale2 := max scale eps32
    let zero_point : ℤ := if qdtype = QuantDtype.UINT then qmax / 2 else 0
    (scale2, zero_point)
  else
    let scale := (vmax_pos - vmin_neg) / ((qmax : ℚ) - (qmin : ℚ))
    let scale2 := max scale eps32
    let zero_point := qmin - roundHalfEven (vmin_neg / scale2)
    (scale2, clampZ zero_point qmin qmax)

/-- The per-channel variant of `calculate_qparams`: the source applies the very
same tensor expressions to channel vectors, i.e. the formulas act elementwise
over the channel dimension (with `qmin`, `qmax` broadcast scalars). -/
def calculate_qparams_per_channel (vmin vmax : List ℚ) (qmin qmax : ℤ)
    (qscheme : QuantScheme) (qdtype : QuantDtype) : List (ℚ × ℤ) :=
  List.zipWith (fun a b => calculate_qparams a b qmin qmax qscheme qdtype) vmin vmax

/-- The solver contract as the specification words it (section 4.1), used as the
refinement target: adjust the range to contain zero, then the symmetric or
affine formulas, scale floored at machine epsilon, zero point an integer. -/
def solve_spec (vmin vmax : ℚ) (qmin qmax : ℤ)
    (qscheme : QuantScheme) (qdtype : QuantDtype) : ℚ × ℤ :=
  let vmin_adj := min vmin 0
  let vmax_adj := max vmax 0
  match qscheme with
  | .PER_TENSOR_SYMMETRIC | .PER_CHANNEL_SYMMETRIC =>
    let vmax_sym := max (-vmin_adj) vmax_adj
    let scale := max (vmax_sym / (((qmax : ℚ) - (qmin : ℚ)) / 2)) eps32
    let zero_point : ℤ := if qdtype = QuantDtype.UINT then qmax / 2 else 0
    (scale, zero_point)
  | .PER_TENSOR_AFFINE | .PER_CHANNEL_AFFINE =>
    let scale := max ((vmax_adj - vmin_adj) / ((qmax : ℚ) - (qmin : ℚ))) eps32
    let zero_point := clampZ (qmin - roundHalfEven (vmin_adj / scale)) qmin qmax
    (scale, zero_point)

/-- The fake quantizer `PtqQuantizer._quantize` (lines 275-280):
divide by scale, shift by the zero point, clamp to the integer range, round,
then undo shift and scale. -/
def _quantize (x scale : ℚ) (zero_point qmin qmax : ℤ) : ℚ :=
  let x1 := x / scale + (zero_point : ℚ)
  let x2 := clampQ x1 (qmin : ℚ) (qmax : ℚ)
  let x3 := roundHalfEven x2
  ((x3 : ℚ) - (zero_point : ℚ)) * scale

/-- Extended rationals: the range-collector buffer is initialized with the
float infinities `float(inf)` and `float(-inf)`. -/
inductive ExtQ where
  | negInf
  | fin (q : ℚ)
  | posInf
deriving DecidableEq

/-- Comparison on extended rationals (float `<=` on values that may be
infinite; no NaN arises in the modelled code paths). -/
def ExtQ.ble : ExtQ → ExtQ → Bool
  | .negInf, _ => true
  | .fin _, .negInf => false
  | .fin a, .fin b => decide (a ≤ b)
  | .fin _, .posInf => true
  | .posInf, .posInf => true
  | .posInf, _ => false

instance : LE ExtQ := ⟨fun x y => ExtQ.ble x y = true⟩

instance (x y : ExtQ) : Decidable (x ≤ y) :=
  inferInstanceAs (Decidable (ExtQ.ble x y = true))

/-- `torch.min` with a possibly infinite accumulator. -/
def ExtQ.min : ExtQ → ExtQ → ExtQ
  | .negInf, _ => .negInf
  | _, .negInf => .negInf
  | .posInf, y => y
  | x, .posInf => x
  | .fin a, .fin b => .fin (Min.min a b)

/-- `torch.max` with a possibly infinite accumulator. -/
def ExtQ.max : ExtQ → ExtQ → ExtQ
  | .posInf, _ => .posInf
  | _, .posInf => .posInf
  | .negInf, y => y
  | x, .negInf => x
  | .fin a, .fin b => .fin (Max.max a b)

/-- The four-slot buffer of `max_min_collector`: `buffer[0] buffer[2]` record
the min of input and output, `buffer[1] buffer[3]` the max. -/
structure RangeBuffer where
  input_min : ExtQ
  input_max : ExtQ
  output_min : ExtQ
  output_max : ExtQ
deriving DecidableEq

/-- The initial buffer contents installed by `max_min_collector` (lines 34-35):
`[inf, -inf, inf, -inf]`. -/
def max_min_collector_init : RangeBuffer :=
  { input_min := .posInf, input_max := .negInf,
    output_min := .posInf, output_max := .negInf }

/-- Minimum entry of a tensor, as in `torch.aminmax`.  `torch.aminmax` rejects
empty tensors; callers guard with `numel() != 0`, so the empty case (mapped to
0) is unreachable in the modelled paths. -/
def tensorMin : List ℚ → ℚ
  | [] => 0
  | a :: t => t.foldl Min.min a

/-- Maximum entry of a tensor, as in `torch.aminmax` (empty case unreachable,
see `tensorMin`). -/
def tensorMax : List ℚ → ℚ
  | [] => 0
  | a :: t => t.foldl Max.max a

/-- The closure `collect_maxmin` returned by `max_min_collector` (lines 37-53),
acting on the buffer state: when tracking the input and the single input
tensor is non-empty, fold its `aminmax` into slots 0 and 1 with `torch.min` /
`torch.max`; likewise for the output into slots 2 and 3. -/
def collect_maxmin (collect_input collect_output : Bool)
    (buffer : RangeBuffer) (input output : List ℚ) : RangeBuffer :=
  let b1 :=
    if collect_input ∧ input ≠ [] then
      { buffer with
        input_min := ExtQ.min (.fin (tensorMin input)) buffer.input_min,
        input_max := ExtQ.max (.fin (tensorMax input)) buffer.input_max }
    else buffer
  if collect_output ∧ output ≠ [] then
    { b1 with
      output_min := ExtQ.min (.fin (tensorMin output)) b1.output_min,
      output_max := ExtQ.max (.fin (tensorMax output)) b1.output_max }
  else b1

/-- The check of `assert torch.all(vmin <= vmax)` opening `calculate_qparams`
(line 66), on the possibly infinite accumulated range read out of the collector
buffer; when it is `false` the assert raises and `compress` aborts for that
layer, storing no parameters. -/
def qparams_range_check (vmin vmax : ExtQ) : Bool := ExtQ.ble vmin vmax

/-- A layer module carrying a foldable batch norm, reduced to the state touched
by `_oneshot_fold_bn`: the live weight and bias and the archive buffers
`old_bn_weight` / `old_bn_bias` (absent before the fold). -/
structure BnModule where
  weight : List ℚ
  bias : List ℚ
  old_bn_weight : Option (List ℚ)
  old_bn_bias : Option (List ℚ)
deriving DecidableEq

/-- `PtqQuantizer._oneshot_fold_bn` (lines 241-253) on one layer, parametric in
`fold_bn` (the arithmetic of `self._fold_bn`, which lives in the base
`Quantizer` class outside this file).  Source order: first
`module.weight.copy_(new_weight)` and `module.bias.copy_(new_bias)`, and only
then `register_buffer('old_bn_weight', module.weight.data)` and
`register_buffer('old_bn_bias', module.bias.data)` — so the archived tensors
are snapshots of the already folded weight and bias. -/
def _oneshot_fold_bn (fold_bn : List ℚ → List ℚ → List ℚ × List ℚ)
    (m : BnModule) : BnModule :=
  let p := fold_bn m.weight m.bias
  { weight := p.1, bias := p.2, old_bn_weight := some p.1, old_bn_bias := some p.2 }

/-- The batch-norm restore step of `export_model` (lines 343-346): when the
module has an `old_bn_weight` attribute, copy the archived weight and bias back
onto the layer. -/
def export_restore_bn (m : BnModule) : BnModule :=
  match m.old_bn_weight, m.old_bn_bias with
  | some w, some b => { m with weight := w, bias := b }
  | _, _ => m

/-- A concrete instance of the base-class `_fold_bn` arithmetic: a batch norm
in eval mode with weight 2, running variance 1 (with epsilon absorbed), running
mean 0 and bias 0 scales the preceding layer by 2. -/
def demo_fold (w b : List ℚ) : List ℚ × List ℚ :=
  (w.map (fun x => 2 * x), b.map (fun x => 2 * x))

/-- The per-quant-type buffers registered on a module by
`_prepare_buffers_for_quant` and consumed by the input and output hooks. -/
structure QModule where
  input_scale : ℚ
  input_zero_point : ℤ
  input_qmin : ℤ
  input_qmax : ℤ
  output_scale : ℚ
  output_zero_point : ℤ
  output_qmin : ℤ
  output_qmax : ℤ
deriving DecidableEq

/-- The orchestrator state the quantization hooks read: the `compressed` flag
set to `False` in `__init__` and to `True` at the end of `compress`. -/
structure PtqState where
  compressed : Bool
deriving DecidableEq

/-- The assignment `self.compressed = True` at line 236 of `compress`. -/
def mark_compressed (_self : PtqState) : PtqState :=
  { compressed := true }

/-- `PtqQuantizer.quantize_input` (lines 282-290): fake-quantize the input with
the stored per-layer parameters when `self.compressed`, otherwise return the
input unchanged. -/
def quantize_input (self : PtqState) (m : QModule) (inputs : ℚ) : ℚ :=
  if self.compressed then
    _quantize inputs m.input_scale m.input_zero_point m.input_qmin m.input_qmax
  else inputs

/-- `PtqQuantizer.quantize_output` (lines 297-305): fake-quantize the output
with the stored per-layer parameters when `self.compressed`, otherwise return
the output unchanged. -/
def quantize_output (self : PtqState) (m : QModule) (output : ℚ) : ℚ :=
  if self.compressed then
    _quantize output m.output_scale m.output_zero_point m.output_qmin m.output_qmax
  else output

/-- `PtqQuantizer.quantize_weight` (lines 292-295): the body is a bare
`return` — the wrapped module is left untouched and `None` is returned. -/
def quantize_weight (_self : PtqState) (wrapper_module : QModule × List ℚ) :
    (QModule × List ℚ) × Option (List ℚ) :=
  (wrapper_module, none)

/-- The weight-carrying state touched by the weight branch of `compress`. -/
structure WeightModule where
  weight : List ℚ
  weight_scale : ℚ
  weight_zero_point : ℤ
  weight_qmin : ℤ
  weight_qmax : ℤ
  weight_scheme : QuantScheme
  weight_dtype : QuantDtype
deriving DecidableEq

/-- The weight branch of `compress` (lines 196-213): read the weight range with
`torch.aminmax`, solve the parameters, store them in the `weight_scale` and
`weight_zero_point` buffers, and overwrite the weight in place with its
fake-quantized value. -/
def compress_weight_step (m : WeightModule) : WeightModule :=
  let vmin := tensorMin m.weight
  let vmax := tensorMax m.weight
  let p := calculate_qparams vmin vmax m.weight_qmin m.weight_qmax
    m.weight_scheme m.weight_dtype
  { m with
    weight_scale := p.1,
    weight_zero_point := p.2,
    weight := m.weight.map (fun x => _quantize x p.1 p.2 m.weight_qmin m.weight_qmax) }

/-- The per-quant-type data `export_model` reads from a module: the `bits`
field of the layer quant setting and the `scale` / `zero_point` / `qmin` /
`qmax` buffers (scale 1 and zero point 0 as registered by
`_prepare_buffers_for_quant`, until `compress` overwrites them). -/
structure QTypeSetting where
  bits : ℕ
  scale : ℚ
  zero_point : ℤ
  qmin : ℤ
  qmax : ℤ
deriving DecidableEq

/-- A named module as `export_model` sees it: each quant type is present
exactly when the corresponding `*_scale` buffer attribute exists. -/
structure ExportModule where
  name : String
  weight_q : Option QTypeSetting
  input_q : Option QTypeSetting
  output_q : Option QTypeSetting
deriving DecidableEq

/-- One entry of the exported calibration table (lines 347-365). -/
structure CalibEntry where
  weight_bits : Option ℕ
  weight_scale : Option ℚ
  weight_zero_point : Option ℤ
  min_weight : Option ℚ
  max_weight : Option ℚ
  input_bits : Option ℕ
  tracked_min_input : Option ℚ
  tracked_max_input : Option ℚ
  output_bits : Option ℕ
  tracked_min_output : Option ℚ
  tracked_max_output : Option ℚ
deriving DecidableEq

/-- The reconstructed range bound `float(scale * (qbound - zero_point))`. -/
def reconstructed_bound (q : QTypeSetting) (qbound : ℤ) : ℚ :=
  q.scale * ((qbound : ℚ) - (q.zero_point : ℚ))

/-- The calibration entry `export_model` builds for one module (lines
347-365): skip the module when none of `weight_scale`, `input_scale`,
`output_scale` is present, otherwise record bits, scale, zero point and the
ranges reconstructed from `scale * (qbound - zero_point)`. -/
def export_entry (m : ExportModule) : Option CalibEntry :=
  if m.weight_q.isNone ∧ m.input_q.isNone ∧ m.output_q.isNone then none
  else some
    { weight_bits := m.weight_q.map (fun q => q.bits),
      weight_scale := m.weight_q.map (fun q => q.scale),
      weight_zero_point := m.weight_q.map (fun q => q.zero_point),
      min_weight := m.weight_q.map (fun q => reconstructed_bound q q.qmin),
      max_weight := m.weight_q.map (fun q => reconstructed_bound q q.qmax),
      input_bits := m.input_q.map (fun q => q.bits),
      tracked_min_input := m.input_q.map (fun q => reconstructed_bound q q.qmin),
      tracked_max_input := m.input_q.map (fun q => reconstructed_bound q q.qmax),
      output_bits := m.output_q.map (fun q => q.bits),
      tracked_min_output := m.output_q.map (fun q => reconstructed_bound q q.qmin),
      tracked_max_output := m.output_q.map (fun q => reconstructed_bound q q.qmax) }

/-- `PtqQuantizer.export_model` (lines 318-371): unwrap, restore archived
batch-norm parameters (modelled separately in `export_restore_bn`), and build
the calibration table over all named modules.  The method never consults
`self.compressed` and contains no raise: the state is threaded here only to
make that visible. -/
def export_model (self : PtqState) (modules : List ExportModule) :
    List (String × CalibEntry) :=
  match self with
  | { compressed := _ } =>
    modules.filterMap (fun m => (export_entry m).map (fun e => (m.name, e)))

/-- The failure raised by `PtqQuantizer.__init__` (line 100):
`RuntimeError` with message `Missing dummy input! Please provide dummy input
to evaluator when op_folding is set to True.` -/
inductive PtqInitError where
  | missingDummyInput
deriving DecidableEq

/-- The state produced by a successful `PtqQuantizer.__init__`. -/
structure PtqQuantizerState where
  model_weights : List ℚ
  dummy_input : Option (List ℚ)
  compressed : Bool
deriving DecidableEq

/-- `PtqQuantizer.__init__` (lines 96-110): fetch
`evaluator.get_dummy_input()`; when `op_folding` is set and it is `None`,
raise before the base-class constructor runs (so before any buffer
registration or weight access); otherwise keep the dummy input only under
`op_folding`, bind the model and set `compressed = False`. -/
def PtqQuantizer_init (model_weights : List ℚ)
    (get_dummy_input : Option (List ℚ)) (op_folding : Bool) :
    Except PtqInitError PtqQuantizerState :=
  let dummy_input := get_dummy_input
  if op_folding ∧ dummy_input = none then
    Except.error PtqInitError.missingDummyInput
  else
    Except.ok
      { model_weights := model_weights,
        dummy_input := if op_folding then dummy_input else none,
        compressed := false }

theorem calculate_qparams_eq_solve_spec (vmin vmax : ℚ) (qmin qmax : ℤ)
    (qscheme : QuantScheme) (qdtype : QuantDtype) :
    calculate_qparams vmin vmax qmin qmax qscheme qdtype
      = solve_spec vmin vmax qmin qmax qscheme qdtype := by
  cases qscheme <;> rfl

/-- C1: for every `vmin ≤ vmax` and `qmin < qmax`, `calculate_qparams` adjusts
the range to include zero and returns exactly the symmetric or affine
scale and zero point of the specification (scale floored at float32 machine
epsilon, symmetric zero point 0 for INT and `qmax // 2` for UINT, affine zero
point `qmin - round(vmin_adj / scale)` clamped into `[qmin, qmax]`); the
per-channel variant applies the same formulas elementwise. -/
theorem C1_calculate_qparams_matches_spec
    (vmin vmax : ℚ) (qmin qmax : ℤ) (qscheme : QuantScheme) (qdtype : QuantDtype)
    (hv : vmin ≤ vmax) (hq : qmin < qmax)
    (vmins vmaxs : List ℚ) (hvs : List.Forall₂ (· ≤ ·) vmins vmaxs) :
    calculate_qparams vmin vmax qmin qmax qscheme qdtype
      = solve_spec vmin vmax qmin qmax qscheme qdtype
    ∧ calculate_qparams_per_channel vmins vmaxs qmin qmax qscheme qdtype
      = List.zipWith (fun a b => solve_spec a b qmin qmax qscheme qdtype) vmins vmaxs := by
  refine ⟨calculate_qparams_eq_solve_spec .., ?_⟩
  unfold calculate_qparams_per_channel
  induction hvs with
  | nil => rfl
  | cons h t ih => simp [List.zipWith, calculate_qparams_eq_solve_spec, ih]

/-- Witness for C1 at `vmin = -2 ≤ vmax = 1`, `qmin = -128 < qmax = 127`,
per-tensor symmetric INT, channel ranges `[-1] ≤ [2]`. -/
theorem C1_witness :
    (-2 : ℚ) ≤ 1 ∧ (-128 : ℤ) < 127 ∧ List.Forall₂ (· ≤ ·) [(-1 : ℚ)] [(2 : ℚ)]
    ∧ (calculate_qparams (-2) 1 (-128) 127 .PER_TENSOR_SYMMETRIC .INT
        = solve_spec (-2) 1 (-128) 127 .PER_TENSOR_SYMMETRIC .INT
      ∧ calculate_qparams_per_channel [(-1 : ℚ)] [(2 : ℚ)] (-128) 127 .PER_TENSOR_SYMMETRIC .INT
        = List.zipWith (fun a b => solve_spec a b (-128) 127 .PER_TENSOR_SYMMETRIC .INT)
            [(-1 : ℚ)] [(2 : ℚ)]) :=
  ⟨by norm_num, by norm_num, List.Forall₂.cons (by norm_num) List.Forall₂.nil,
    C1_calculate_qparams_matches_spec (-2) 1 (-128) 127 .PER_TENSOR_SYMMETRIC .INT
      (by norm_num) (by norm_num) [(-1 : ℚ)] [(2 : ℚ)]
      (List.Forall₂.cons (by norm_num) List.Forall₂.nil)⟩

theorem floor_le_roundHalfEven (q : ℚ) : ⌊q⌋ ≤ roundHalfEven q := by
  unfold roundHalfEven
  split_ifs <;> omega

theorem le_roundHalfEven {m : ℤ} {q : ℚ} (h : (m : ℚ) ≤ q) : m ≤ roundHalfEven q :=
  le_trans (Int.le_floor.mpr h) (floor_le_roundHalfEven q)

theorem roundHalfEven_le {M : ℤ} {q : ℚ} (h : q ≤ (M : ℚ)) : roundHalfEven q ≤ M := by
  have hf : ⌊q⌋ ≤ M := by
    have h2 := Int.floor_le_floor h
    simpa using h2
  have hfq : (⌊q⌋ : ℚ) ≤ q := Int.floor_le q
  unfold roundHalfEven
  split_ifs with h1 h2 h3
  · exact hf
  · have hq2 : (⌊q⌋ : ℚ) + 1 / 2 ≤ q := by linarith
    have hlt : (⌊q⌋ : ℚ) < (M : ℚ) := by linarith
    have hlt2 : ⌊q⌋ < M := by exact_mod_cast hlt
    omega
  · exact hf
  · have hq2 : (⌊q⌋ : ℚ) + 1 / 2 ≤ q := by linarith
    have hlt : (⌊q⌋ : ℚ) < (M : ℚ) := by linarith
    have hlt2 : ⌊q⌋ < M := by exact_mod_cast hlt
    omega

theorem roundHalfEven_intCast (n : ℤ) : roundHalfEven (n : ℚ) = n := by
  unfold roundHalfEven
  rw [Int.floor_intCast]
  norm_num

/-- C3: the fake quantizer is idempotent: for scale positive, an integer zero
point and `qmin ≤ qmax`, applying `_quantize` twice equals applying it once
(the second clamp and round are no-ops on already quantized levels). -/
theorem C3_quantize_idempotent (x scale : ℚ) (zero_point qmin qmax : ℤ)
    (hs : 0 < scale) (hq : qmin ≤ qmax) :
    _quantize (_quantize x scale zero_point qmin qmax) scale zero_point qmin qmax
      = _quantize x scale zero_point qmin qmax := by
  have hqQ : (qmin : ℚ) ≤ (qmax : ℚ) := by exact_mod_cast hq
  have hsne : scale ≠ 0 := ne_of_gt hs
  simp only [_quantize, clampQ]
  set y := x / scale + (zero_point : ℚ) with hy
  set c := min (max y (qmin : ℚ)) (qmax : ℚ) with hc
  have hc1 : (qmin : ℚ) ≤ c := le_min (le_max_right _ _) hqQ
  have hc2 : c ≤ (qmax : ℚ) := min_le_right _ _
  have h1 : qmin ≤ roundHalfEven c := le_roundHalfEven hc1
  have h2 : roundHalfEven c ≤ qmax := roundHalfEven_le hc2
  have key : ((roundHalfEven c : ℚ) - (zero_point : ℚ)) * scale / scale + (zero_point : ℚ)
      = (roundHalfEven c : ℚ) := by
    field_simp
  rw [key]
  have hmax : max ((roundHalfEven c : ℚ)) (qmin : ℚ) = (roundHalfEven c : ℚ) :=
    max_eq_left (by exact_mod_cast h1)
  have hmin : min ((roundHalfEven c : ℚ)) (qmax : ℚ) = (roundHalfEven c : ℚ) :=
    min_eq_left (by exact_mod_cast h2)
  rw [hmax, hmin, roundHalfEven_intCast]

/-- Witness for C3 at `x = 1/3`, `scale = 1/2`, `zero_point = 0`,
`qmin = -4`, `qmax = 4`. -/
theorem C3_witness :
    (0 : ℚ) < 1 / 2 ∧ (-4 : ℤ) ≤ 4
    ∧ _quantize (_quantize (1 / 3) (1 / 2) 0 (-4) 4) (1 / 2) 0 (-4) 4
      = _quantize (1 / 3) (1 / 2) 0 (-4) 4 :=
  ⟨by norm_num, by norm_num,
    C3_quantize_idempotent (1 / 3) (1 / 2) 0 (-4) 4 (by norm_num) (by norm_num)⟩

theorem scale_floor_pos (s : ℚ) : 0 < max s eps32 :=
  lt_of_lt_of_le (by norm_num [eps32]) (le_max_right _ _)

theorem clampZ_mem {z qmin qmax : ℤ} (h : qmin ≤ qmax) :
    qmin ≤ clampZ z qmin qmax ∧ clampZ z qmin qmax ≤ qmax :=
  ⟨le_min (le_max_right _ _) h, min_le_right _ _⟩

/-- C2 counterexample: at `vmin = 0 ≤ vmax = 1` and `qmin = 1 < qmax = 3`
under the per-tensor symmetric scheme with signed dtype, the zero point
returned by `calculate_qparams` is 0, which does not lie in `[qmin, qmax]`. -/
theorem C2_counterexample :
    (0 : ℚ) ≤ 1 ∧ (1 : ℤ) < 3
    ∧ ¬ (1 ≤ (calculate_qparams 0 1 1 3 .PER_TENSOR_SYMMETRIC .INT).2
          ∧ (calculate_qparams 0 1 1 3 .PER_TENSOR_SYMMETRIC .INT).2 ≤ 3) := by
  refine ⟨by norm_num, by norm_num, ?_⟩
  have hz : (calculate_qparams 0 1 1 3 .PER_TENSOR_SYMMETRIC .INT).2 = 0 := rfl
  rw [hz]
  omega

/-- C2 (amended): for `vmin ≤ vmax` and `qmin < qmax`, `calculate_qparams`
returns `scale > 0` for every scheme and dtype, and an integer zero point in
`[qmin, qmax]` under affine schemes unconditionally; under symmetric schemes
the zero point is the constant 0 (signed) or `qmax // 2` (unsigned), which
lies in `[qmin, qmax]` whenever `qmin ≤ 0 ≤ qmax`, respectively
`qmin ≤ qmax // 2 ≤ qmax` — as holds for every bit-derived integer range. -/
theorem C2_amended_qparams_guarantee
    (vmin vmax : ℚ) (qmin qmax : ℤ) (qscheme : QuantScheme) (qdtype : QuantDtype)
    (hv : vmin ≤ vmax) (hq : qmin < qmax)
    (hsym : qscheme.isSymmetric = true →
      (qdtype = QuantDtype.INT → qmin ≤ 0 ∧ 0 ≤ qmax)
      ∧ (qdtype = QuantDtype.UINT → qmin ≤ qmax / 2 ∧ qmax / 2 ≤ qmax)) :
    0 < (calculate_qparams vmin vmax qmin qmax qscheme qdtype).1
    ∧ qmin ≤ (calculate_qparams vmin vmax qmin qmax qscheme qdtype).2
    ∧ (calculate_qparams vmin vmax qmin qmax qscheme qdtype).2 ≤ qmax := by
  cases qscheme <;> cases qdtype <;>
    first
      | exact ⟨scale_floor_pos _, (clampZ_mem hq.le).1, (clampZ_mem hq.le).2⟩
      | exact ⟨scale_floor_pos _, ((hsym rfl).1 rfl).1, ((hsym rfl).1 rfl).2⟩
      | exact ⟨scale_floor_pos _, ((hsym rfl).2 rfl).1, ((hsym rfl).2 rfl).2⟩

/-- Witness for the amended C2 at `vmin = -1 ≤ vmax = 2`,
`qmin = 0 < qmax = 255`, per-tensor affine, unsigned dtype. -/
theorem C2_amended_witness :
    (-1 : ℚ) ≤ 2 ∧ (0 : ℤ) < 255
    ∧ (QuantScheme.PER_TENSOR_AFFINE.isSymmetric = true →
        (QuantDtype.UINT = QuantDtype.INT → (0 : ℤ) ≤ 0 ∧ (0 : ℤ) ≤ 255)
        ∧ (QuantDtype.UINT = QuantDtype.UINT → (0 : ℤ) ≤ 255 / 2 ∧ (255 : ℤ) / 2 ≤ 255))
    ∧ (0 < (calculate_qparams (-1) 2 0 255 .PER_TENSOR_AFFINE .UINT).1
        ∧ 0 ≤ (calculate_qparams (-1) 2 0 255 .PER_TENSOR_AFFINE .UINT).2
        ∧ (calculate_qparams (-1) 2 0 255 .PER_TENSOR_AFFINE .UINT).2 ≤ 255) :=
  ⟨by norm_num, by norm_num, by decide,
    C2_amended_qparams_guarantee (-1) 2 0 255 .PER_TENSOR_AFFINE .UINT
      (by norm_num) (by norm_num) (by decide)⟩

theorem ExtQ.le_refl (a : ExtQ) : a ≤ a := by
  show ExtQ.ble a a = true
  cases a <;> simp [ExtQ.ble]

theorem ExtQ.min_le_right (a b : ExtQ) : ExtQ.min a b ≤ b := by
  show ExtQ.ble (ExtQ.min a b) b = true
  cases a <;> cases b <;> simp [ExtQ.min, ExtQ.ble]

theorem ExtQ.le_max_right (a b : ExtQ) : b ≤ ExtQ.max a b := by
  show ExtQ.ble b (ExtQ.max a b) = true
  cases a <;> cases b <;> simp [ExtQ.max, ExtQ.ble]

/-- C4: the collector buffer starts at `(+inf, -inf, +inf, -inf)`; every call
of the collector on non-empty input and output tensors only widens the
accumulated range (tracked minima never increase, tracked maxima never
decrease); and feeding the batches `[-1, 2]` then `[-5, 3]` yields the running
range `[-5, 3]`. -/
theorem C4_collector_monotone :
    max_min_collector_init
      = { input_min := .posInf, input_max := .negInf,
          output_min := .posInf, output_max := .negInf }
    ∧ (∀ (ci co : Bool) (buf : RangeBuffer) (inp outp : List ℚ),
        inp ≠ [] → outp ≠ [] →
          (collect_maxmin ci co buf inp outp).input_min ≤ buf.input_min
          ∧ buf.input_max ≤ (collect_maxmin ci co buf inp outp).input_max
          ∧ (collect_maxmin ci co buf inp outp).output_min ≤ buf.output_min
          ∧ buf.output_max ≤ (collect_maxmin ci co buf inp outp).output_max)
    ∧ collect_maxmin true true
        (collect_maxmin true true max_min_collector_init [-1, 2] [-1, 2])
        [-5, 3] [-5, 3]
      = { input_min := .fin (-5), input_max := .fin 3,
          output_min := .fin (-5), output_max := .fin 3 } := by
  refine ⟨rfl, ?_, by decide⟩
  intro ci co buf inp outp hin hout
  simp only [collect_maxmin]
  split_ifs <;>
    refine ⟨?_, ?_, ?_, ?_⟩ <;>
      first
        | exact ExtQ.le_refl _
        | exact ExtQ.min_le_right _ _
        | exact ExtQ.le_max_right _ _

/-- Witness for the widening part of C4 at the non-empty batches `[0]`. -/
theorem C4_witness :
    ([(0 : ℚ)] : List ℚ) ≠ []
    ∧ ((collect_maxmin true true max_min_collector_init [0] [0]).input_min
          ≤ max_min_collector_init.input_min
        ∧ max_min_collector_init.input_max
          ≤ (collect_maxmin true true max_min_collector_init [0] [0]).input_max
        ∧ (collect_maxmin true true max_min_collector_init [0] [0]).output_min
          ≤ max_min_collector_init.output_min
        ∧ max_min_collector_init.output_max
          ≤ (collect_maxmin true true max_min_collector_init [0] [0]).output_max) :=
  ⟨by simp,
    C4_collector_monotone.2.1 true true max_min_collector_init [0] [0]
      (by simp) (by simp)⟩

/-- C5 (code bug): `_oneshot_fold_bn` copies the folded weight and bias into
the module first and only then registers the `old_bn_weight` / `old_bn_bias`
archive from `module.weight.data` / `module.bias.data`, so the archive holds
the folded values, not the pre-fold originals.  With a fold that doubles the
layer (`demo_fold`) and original weight `[1]`, the archive is `[2]`, and the
weight `export_model` restores is `[2]`, not the original `[1]`. -/
theorem C5_fold_archives_folded_values :
    (_oneshot_fold_bn demo_fold
        { weight := [1], bias := [0], old_bn_weight := none, old_bn_bias := none }).old_bn_weight
      = some [2]
    ∧ (export_restore_bn
        (_oneshot_fold_bn demo_fold
          { weight := [1], bias := [0], old_bn_weight := none, old_bn_bias := none })).weight
      = [2]
    ∧ ([2] : List ℚ) ≠ [1] := by
  refine ⟨?_, ?_, by norm_num⟩ <;>
    simp [_oneshot_fold_bn, export_restore_bn, demo_fold]

/-- C6: the input and output quantization hooks are a pass-through while
`compressed` is false, and once `compress` has set `compressed = true` (the
`mark_compressed` step) they apply the fake quantizer with the per-layer
stored scale, zero point, qmin and qmax. -/
theorem C6_io_hooks_gated_by_compressed :
    ∀ (st : PtqState) (m : QModule) (x : ℚ),
      (st.compressed = false →
        quantize_input st m x = x ∧ quantize_output st m x = x)
      ∧ (st.compressed = true →
        quantize_input st m x
            = _quantize x m.input_scale m.input_zero_point m.input_qmin m.input_qmax
          ∧ quantize_output st m x
            = _quantize x m.output_scale m.output_zero_point m.output_qmin m.output_qmax)
      ∧ (mark_compressed st).compressed = true := by
  intro st m x
  refine ⟨fun h => ?_, fun h => ?_, rfl⟩
  · constructor <;> simp [quantize_input, quantize_output, h]
  · constructor <;> simp [quantize_input, quantize_output, h]

/-- Witness for C6 at a concrete state and module, in both modes. -/
theorem C6_witness :
    (({ compressed := false } : PtqState).compressed = false
      ∧ quantize_input { compressed := false }
          { input_scale := 1, input_zero_point := 0, input_qmin := 0, input_qmax := 255,
            output_scale := 1, output_zero_point := 0, output_qmin := 0, output_qmax := 255 }
          (1 / 3) = 1 / 3
      ∧ quantize_output { compressed := false }
          { input_scale := 1, input_zero_point := 0, input_qmin := 0, input_qmax := 255,
            output_scale := 1, output_zero_point := 0, output_qmin := 0, output_qmax := 255 }
          (1 / 3) = 1 / 3)
    ∧ (({ compressed := true } : PtqState).compressed = true
      ∧ quantize_input { compressed := true }
          { input_scale := 1, input_zero_point := 0, input_qmin := 0, input_qmax := 255,
            output_scale := 1, output_zero_point := 0, output_qmin := 0, output_qmax := 255 }
          (1 / 3)
        = _quantize (1 / 3) 1 0 0 255) :=
  ⟨⟨rfl,
    (C6_io_hooks_gated_by_compressed { compressed := false }
      { input_scale := 1, input_zero_point := 0, input_qmin := 0, input_qmax := 255,
        output_scale := 1, output_zero_point := 0, output_qmin := 0, output_qmax := 255 }
      (1 / 3)).1 rfl⟩,
   rfl,
    ((C6_io_hooks_gated_by_compressed { compressed := true }
      { input_scale := 1, input_zero_point := 0, input_qmin := 0, input_qmax := 255,
        output_scale := 1, output_zero_point := 0, output_qmin := 0, output_qmax := 255 }
      (1 / 3)).2.1 rfl).1⟩

/-- C7 counterexample: with `compressed` still false, `export_model` on a
module whose input buffers hold their initial contents (scale 1, zero point 0)
returns a calibration record instead of failing: the method contains no
compressed check and no raise. -/
theorem C7_counterexample :
    (({ compressed := false } : PtqState).compressed = false)
    ∧ export_model { compressed := false }
        [{ name := "fc", weight_q := none,
           input_q := some { bits := 8, scale := 1, zero_point := 0, qmin := 0, qmax := 255 },
           output_q := none }]
      = [("fc",
          { weight_bits := none, weight_scale := none, weight_zero_point := none,
            min_weight := none, max_weight := none,
            input_bits := some 8, tracked_min_input := some 0, tracked_max_input := some 255,
            output_bits := none, tracked_min_output := none, tracked_max_output := none })]
    ∧ export_model { compressed := false }
        [{ name := "fc", weight_q := none,
           input_q := some { bits := 8, scale := 1, zero_point := 0, qmin := 0, qmax := 255 },
           output_q := none }]
      ≠ [] := by
  refine ⟨rfl, ?_, ?_⟩ <;>
    simp [export_model, export_entry, reconstructed_bound]

/-- C7 (amended): `export_model` never consults the `compressed` flag: its
result is the same before and after `compress`, the calibration record built
from the per-layer buffers as they stand (so invoking it before `compress`
does not fail with an error, and uses the initial scale 1 and zero point 0). -/
theorem C7_amended_export_ignores_compressed :
    ∀ (b1 b2 : Bool) (modules : List ExportModule),
      export_model { compressed := b1 } modules
        = export_model { compressed := b2 } modules := by
  intro b1 b2 modules
  rfl

/-- C8: when `op_folding` is requested and the dummy input is `None`,
`PtqQuantizer.__init__` fails with the missing-dummy-input error; the outcome
is independent of the model weights, which are neither read nor mutated
before the raise. -/
theorem C8_init_missing_dummy_input :
    ∀ (w w2 : List ℚ),
      PtqQuantizer_init w none true = Except.error PtqInitError.missingDummyInput
      ∧ PtqQuantizer_init w none true = PtqQuantizer_init w2 none true := by
  intro w w2
  exact ⟨rfl, rfl⟩

/-- C9: `quantize_weight` is unconditionally a no-op: in every state, both
before and after compression, it returns `None` and leaves the wrapped module
untouched; the weight itself is fake-quantized exactly once, in place, by the
weight branch of `compress` (`compress_weight_step`). -/
theorem C9_quantize_weight_noop :
    (∀ (st : PtqState) (wm : QModule × List ℚ),
      quantize_weight st wm = (wm, none)
      ∧ quantize_weight (mark_compressed st) wm = (wm, none))
    ∧ (∀ m : WeightModule,
        (compress_weight_step m).weight
          = m.weight.map (fun x =>
              _quantize x (compress_weight_step m).weight_scale
                (compress_weight_step m).weight_zero_point
                m.weight_qmin m.weight_qmax)) :=
  ⟨fun _ _ => ⟨rfl, rfl⟩, fun _ => rfl⟩

/-- C10: a layer observing zero non-empty batches keeps its collector buffer
at the initial `(+inf, -inf, +inf, -inf)`, and the
`assert torch.all(vmin <= vmax)` check opening `calculate_qparams` is false on
those initial contents, so `compress` aborts for that layer instead of storing
quantization parameters. -/
theorem C10_empty_calibration_aborts :
    ∀ (ci co : Bool) (batches : List (List ℚ × List ℚ)),
      (∀ p ∈ batches, p.1 = [] ∧ p.2 = []) →
        batches.foldl (fun buf p => collect_maxmin ci co buf p.1 p.2)
            max_min_collector_init
          = max_min_collector_init
        ∧ qparams_range_check max_min_collector_init.input_min
            max_min_collector_init.input_max = false
        ∧ qparams_range_check max_min_collector_init.output_min
            max_min_collector_init.output_max = false := by
  intro ci co batches h
  have step : ∀ (buf : RangeBuffer) (p : List ℚ × List ℚ),
      p.1 = [] → p.2 = [] → collect_maxmin ci co buf p.1 p.2 = buf := by
    intro buf p h1 h2
    simp [collect_maxmin, h1, h2]
  have gen : ∀ (bs : List (List ℚ × List ℚ)),
      (∀ p ∈ bs, p.1 = [] ∧ p.2 = []) →
      bs.foldl (fun buf p => collect_maxmin ci co buf p.1 p.2)
          max_min_collector_init
        = max_min_collector_init := by
    intro bs
    induction bs with
    | nil => intro _; rfl
    | cons p t ih =>
        intro hh
        have hp := hh p (List.mem_cons_self ..)
        rw [List.foldl_cons, step _ p hp.1 hp.2]
        exact ih (fun q hq => hh q (List.mem_cons_of_mem _ hq))
  exact ⟨gen batches h, rfl, rfl⟩

/-- Witness for C10 at a single all-empty batch. -/
theorem C10_witness :
    (∀ p ∈ [(([] : List ℚ), ([] : List ℚ))], p.1 = [] ∧ p.2 = [])
    ∧ ([(([] : List ℚ), ([] : List ℚ))].foldl
          (fun buf p => collect_maxmin true true buf p.1 p.2)
          max_min_collector_init
        = max_min_collector_init
      ∧ qparams_range_check max_min_collector_init.input_min
          max_min_collector_init.input_max = false
      ∧ qparams_range_check max_min_collector_init.output_min
          max_min_collector_init.output_max = false) :=
  ⟨by simp, C10_empty_calibration_aborts true true [([], [])] (by simp)⟩
